import Mathlib

/-!
Verification of `dynect/convenient_client.go` from pubnub/terraform-provider-dyn
(vendored `github.com/nesv/go-dynect/dynect`).

The Go file is shallowly embedded below: each façade method becomes a pure
Lean function.  The HTTP collaborator `Client.Do` is abstracted as an
explicit argument (an oracle giving the response of each call), and every
function additionally returns the list of HTTP calls it issued, so that
claims about which requests are made ("does not invoke the HTTP layer",
"at least one listing request") become statements about that trace.
Record mutation (`*Record` receiver methods mutate their argument) is
embedded as explicit state passing: each operation returns the updated
record alongside its result.
-/

/-- Retry constant from the Go source: backoff factor per attempt (ms). -/
def DO_RETRY_BACKOFF_FACTOR_MILLIS : Nat := 250

/-- Retry constant from the Go source: per-attempt sleep cap (ms). -/
def DO_MAX_SLEEP_MILLIS : Nat := 2000

/-- Retry constant from the Go source: cumulative wait budget (ms). -/
def DO_MAX_CUMULATIVE_WAIT_MILLIS : Nat := 30000

/-- Modelled from the spec (the `Record` struct of go-dynect is declared
outside this file): zone, FQDN, name, type, value, TTL (string-encoded
integer) and the provider-assigned ID.  All fields are Go strings. -/
structure Record where
  id : String := ""
  zone : String := ""
  name : String := ""
  value : String := ""
  type : String := ""
  fqdn : String := ""
  ttl : String := ""
deriving Repr, DecidableEq

/-- Modelled from the spec (the `DataBlock` struct of go-dynect is declared
outside this file): a variant payload keyed by record type, each type
populating a disjoint subset of fields.  Defaults are Go zero values, so
`DataBlock{}` in the source is the literal with every default. -/
structure DataBlock where
  address : String := ""
  aliasName : String := ""
  cname : String := ""
  preference : Int := 0
  exchange : String := ""
  nsdname : String := ""
  rname : String := ""
  txtData : String := ""
deriving Repr, DecidableEq

/-- Modelled from the spec (the `RecordResponse` data of go-dynect is
declared outside this file): zone, fqdn, record type, ttl (an integer) and
the nested type-specific rdata returned by the Get endpoint. -/
structure RecordResponseData where
  zone : String := ""
  fqdn : String := ""
  recordType : String := ""
  ttl : Int := 0
  rdata : DataBlock := {}
deriving Repr, DecidableEq

/-- One HTTP call issued through the `Client.Do` collaborator. -/
structure HttpCall where
  method : String
  url : String
deriving Repr, DecidableEq

/-- ASCII/Latin-1 whitespace recognized by Go `fmt` scanning
(space, tab, newline, vertical tab, form feed, carriage return,
next line, non-breaking space). -/
def goSpace (c : Char) : Bool :=
  decide (c.toNat = 32) || decide (c.toNat = 9) || decide (c.toNat = 10) ||
  decide (c.toNat = 11) || decide (c.toNat = 12) || decide (c.toNat = 13) ||
  decide (c.toNat = 133) || decide (c.toNat = 160)

/-- Decimal digit test, as used by Go integer scanning. -/
def goDigit (c : Char) : Bool :=
  decide (48 ≤ c.toNat) && decide (c.toNat ≤ 57)

/-- Numeric value of a decimal digit character. -/
def digitVal (c : Char) : Nat := c.toNat - 48

/-- The decimal digit character for a value below ten ('0' + k in Go). -/
def digitChar (k : Nat) : Char :=
  if k = 0 then '0' else if k = 1 then '1' else if k = 2 then '2'
  else if k = 3 then '3' else if k = 4 then '4' else if k = 5 then '5'
  else if k = 6 then '6' else if k = 7 then '7' else if k = 8 then '8' else '9'

/-- Value of a big-endian decimal digit string. -/
def digitsToNat (ds : List Char) : Nat :=
  ds.foldl (fun a c => a * 10 + digitVal c) 0

/-- Emit the decimal digits of `n` most-significant first (fuel-recursive
model of Go's integer formatting; the first argument is fuel, always called
with fuel ≥ n so it never runs out). -/
def natToDecAux : Nat → Nat → List Char → List Char
  | 0, _, acc => acc
  | fuel + 1, n, acc =>
    if n = 0 then acc else natToDecAux fuel (n / 10) (digitChar (n % 10) :: acc)

/-- Decimal representation of a natural number, as Go `%d` prints it. -/
def natToDec (n : Nat) : String :=
  if n = 0 then "0" else String.mk (natToDecAux n n [])

/-- Decimal representation of a Go `int`, as `fmt.Sprintf("%d", i)` and
`strconv.Itoa` print it: a minus sign for negatives, then the digits. -/
def intToDec : Int → String
  | Int.ofNat n => natToDec n
  | Int.negSucc n => "-" ++ natToDec (n + 1)

/-- Scan a run of decimal digits from the front of the input, as the digit
part of Go `%d` verb scanning: fails when no digit is present, otherwise
returns the value and the unconsumed remainder. -/
def scanNat (l : List Char) : Option (Nat × List Char) :=
  let ds := l.takeWhile goDigit
  if ds = [] then none else some (digitsToNat ds, l.dropWhile goDigit)

/-- Scan a (possibly signed) decimal integer, as the Go `%d` verb does
after its leading-space skip: an optional single '+' or '-' sign must be
followed immediately by at least one digit. -/
def scanInt (l : List Char) : Option (Int × List Char) :=
  match l with
  | [] => none
  | c :: rest =>
    if c = '-' then
      match scanNat rest with
      | none => none
      | some (n, r) => some (-(n : Int), r)
    else if c = '+' then
      match scanNat rest with
      | none => none
      | some (n, r) => some ((n : Int), r)
    else
      match scanNat l with
      | none => none
      | some (n, r) => some ((n : Int), r)

/-- Model of `fmt.Sscanf(value, "%d %s", &preference, &exchange)`:
`%d` skips leading whitespace and scans a signed decimal integer (on
failure both outputs keep their zero values); the format space and the
`%s` verb then skip whitespace and scan a maximal non-whitespace token
(an absent token leaves the exchange at its zero value).  The Go caller
discards the returned count and error, so only the two outputs matter. -/
def sscanfDS (v : String) : Int × String :=
  match scanInt (v.data.dropWhile goSpace) with
  | none => (0, "")
  | some (p, rest) =>
    let tok := (rest.dropWhile goSpace).takeWhile (fun c => !(goSpace c))
    (p, String.mk tok)

/-- Model of Go `strings.TrimPrefix s pre`: drops `pre` when it is a
prefix of `s` and otherwise returns `s` unchanged. -/
def trimPrefixStr (s pre : String) : String :=
  if pre.data.isPrefixOf s.data then String.mk (s.data.drop pre.data.length) else s

/-- Model of Go `strings.TrimSuffix s suf`: drops `suf` when it is a
suffix of `s` and otherwise returns `s` unchanged. -/
def trimSuffixStr (s suf : String) : String :=
  if suf.data.isSuffixOf s.data then
    String.mk (s.data.take (s.data.length - suf.data.length))
  else s

/-- Model of Go `strings.Contains s c` for a one-character needle. -/
def containsStr (s : String) (c : Char) : Bool := s.data.contains c

/-- `buildRData`: pure mapping from a record's (type, value) to the
type-specific `DataBlock`, line for line from the Go switch.  The MX arm
runs the `Sscanf` model and discards its success indication. -/
def buildRData (r : Record) : Except String DataBlock :=
  if r.type = "A" ∨ r.type = "AAAA" then Except.ok { address := r.value }
  else if r.type = "ALIAS" then Except.ok { aliasName := r.value }
  else if r.type = "CNAME" then Except.ok { cname := r.value }
  else if r.type = "MX" then
    Except.ok { preference := (sscanfDS r.value).1, exchange := (sscanfDS r.value).2 }
  else if r.type = "NS" then Except.ok { nsdname := r.value }
  else if r.type = "SOA" then Except.ok { rname := r.value }
  else if r.type = "TXT" ∨ r.type = "SPF" then Except.ok { txtData := r.value }
  else Except.error ("Invalid Dyn record type: " ++ r.type)

/-- The record types accepted by `buildRData` and by `GetRecord`'s
response switch. -/
def supportedTypes : List String :=
  ["A", "AAAA", "ALIAS", "CNAME", "MX", "NS", "SOA", "TXT", "SPF"]

/-- The type-matched value extraction from `GetRecord`'s response switch:
which `DataBlock` field (or formatted combination, for MX) becomes the
record's flat value; `none` on the default (unrecognized type) arm. -/
def getRecordValue (t : String) (d : DataBlock) : Option String :=
  if t = "A" ∨ t = "AAAA" then some d.address
  else if t = "ALIAS" then some d.aliasName
  else if t = "CNAME" then some d.cname
  else if t = "MX" then some (intToDec d.preference ++ " " ++ d.exchange)
  else if t = "NS" then some d.nsdname
  else if t = "SOA" then some d.rname
  else if t = "TXT" ∨ t = "SPF" then some d.txtData
  else none

/-- The `/REST/{type}Record/{zone}/{fqdn}/` pattern stripped from each
listing URL in `GetRecordID`. -/
def recordListPat (r : Record) : String :=
  "/REST/" ++ r.type ++ "Record/" ++ r.zone ++ "/" ++ r.fqdn ++ "/"

/-- One step of `GetRecordID`'s inner loop over listing URLs: strip the
pattern, and overwrite `finalID` exactly when the remainder has no "/"
and is non-empty. -/
def selectIDStep (pat finalID url : String) : String :=
  let id := trimPrefixStr url pat
  if containsStr id '/' = false ∧ id ≠ "" then id else finalID

/-- The whole inner loop of `GetRecordID` over one listing response. -/
def selectID (pat finalID : String) (urls : List String) : String :=
  urls.foldl (selectIDStep pat) finalID

/-- A listing URL's accepted candidate, when there is one: the stripped
remainder if it has no "/" and is non-empty, `none` otherwise.  (Used only
to state properties of `selectID`.) -/
def acceptedCandidate (pat url : String) : Option String :=
  let id := trimPrefixStr url pat
  if containsStr id '/' = false ∧ id ≠ "" then some id else none

/-- The sleep computed at attempt `loopCount`:
`math.Min(float64(loopCount*DO_RETRY_BACKOFF_FACTOR_MILLIS), DO_MAX_SLEEP_MILLIS)`.
All values involved are small integers, represented exactly by `float64`,
so the arithmetic is embedded over `Nat`. -/
def sleepMillis (loopCount : Nat) : Nat :=
  min (loopCount * DO_RETRY_BACKOFF_FACTOR_MILLIS) DO_MAX_SLEEP_MILLIS

/-- The retry loop of `GetRecordID`.  `oracle n` is the listing response
of the `Do("GET", url, ...)` call made at attempt `n` (`loopCount` starts
at 1 in the Go source, whence the `1 ≤ loopCount` argument, which also
makes the sleep per attempt positive and the loop terminating).  Returns
the loop's outcome together with the trace of HTTP calls issued. -/
def getRecordIDLoop (oracle : Nat → Except String (List String)) (pat url : String)
    (finalID : String) (loopCount cumulative : Nat) (h : 1 ≤ loopCount) :
    Except String String × List HttpCall :=
  match oracle loopCount with
  | Except.error e =>
    (Except.error ("Failed to find Dyn record id: " ++ e), [⟨"GET", url⟩])
  | Except.ok urls =>
    let fid := selectID pat finalID urls
    if hc : fid ≠ "" ∨ cumulative ≥ DO_MAX_CUMULATIVE_WAIT_MILLIS then
      (if fid = "" then Except.error "Failed to find Dyn record id!" else Except.ok fid,
       [⟨"GET", url⟩])
    else
      let rest := getRecordIDLoop oracle pat url fid (loopCount + 1)
        (cumulative + sleepMillis loopCount) (Nat.succ_le_succ (Nat.zero_le loopCount))
      (rest.1, ⟨"GET", url⟩ :: rest.2)
termination_by DO_MAX_CUMULATIVE_WAIT_MILLIS - cumulative
decreasing_by
  push_neg at hc
  have h2 := hc.2
  simp only [sleepMillis, DO_RETRY_BACKOFF_FACTOR_MILLIS, DO_MAX_SLEEP_MILLIS,
    DO_MAX_CUMULATIVE_WAIT_MILLIS] at *
  omega

/-- `GetRecordID`: find the record ID by fetching all records of the FQDN,
retrying with backoff; on success the ID is written into the record. -/
def getRecordID (oracle : Nat → Except String (List String)) (r : Record) :
    Record × Except String Unit × List HttpCall :=
  let url := "AllRecord/" ++ r.zone ++ "/" ++ r.fqdn
  let res := getRecordIDLoop oracle (recordListPat r) url "" 1 0 (Nat.le_refl 1)
  match res.1 with
  | Except.error e => (r, Except.error e, res.2)
  | Except.ok id => ({ r with id := id }, Except.ok (), res.2)

/-- `CreateRecord`: derive the FQDN (with the apex special case), build the
rdata, and POST.  `doRes` abstracts the transport outcome of the `Do` call. -/
def createRecord (doRes : Except String Unit) (r0 : Record) :
    Record × Except String Unit × List HttpCall :=
  let r := if r0.fqdn = "" ∧ r0.name = "" then { r0 with fqdn := r0.zone }
    else if r0.fqdn = "" then { r0 with fqdn := r0.name ++ "." ++ r0.zone }
    else r0
  match buildRData r with
  | Except.error e => (r, Except.error ("Failed to create Dyn RData: " ++ e), [])
  | Except.ok _ =>
    (r, doRes, [⟨"POST", r.type ++ "Record/" ++ r.zone ++ "/" ++ r.fqdn⟩])

/-- `UpdateRecord`: derive the FQDN (no apex special case in the source),
build the rdata, and PUT to the ID-qualified URL. -/
def updateRecord (doRes : Except String Unit) (r0 : Record) :
    Record × Except String Unit × List HttpCall :=
  let r := if r0.fqdn = "" then { r0 with fqdn := r0.name ++ "." ++ r0.zone } else r0
  match buildRData r with
  | Except.error e => (r, Except.error ("Failed to create Dyn RData: " ++ e), [])
  | Except.ok _ =>
    (r, doRes,
     [⟨"PUT", r.type ++ "Record/" ++ r.zone ++ "/" ++ r.fqdn ++ "/" ++ r.id⟩])

/-- `DeleteRecord`: derive the FQDN (no apex special case in the source),
then refuse to call the API when the ID is empty; otherwise DELETE. -/
def deleteRecord (doRes : Except String Unit) (r0 : Record) :
    Record × Except String Unit × List HttpCall :=
  let r := if r0.fqdn = "" then { r0 with fqdn := r0.name ++ "." ++ r0.zone } else r0
  if r.id = "" then (r, Except.error "No ID found! We can't continue!", [])
  else
    (r, doRes,
     [⟨"DELETE", r.type ++ "Record/" ++ r.zone ++ "/" ++ r.fqdn ++ "/" ++ r.id⟩])

/-- `GetRecord`: GET by ID; on transport success overwrite the record's
zone, fqdn, name, type and ttl from the response, then demux the rdata by
record type into the flat value, erroring on an unrecognized type (after
those fields were already overwritten). -/
def getRecord (resp : Except String RecordResponseData) (r0 : Record) :
    Record × Except String Unit × List HttpCall :=
  let url := r0.type ++ "Record/" ++ r0.zone ++ "/" ++ r0.fqdn ++ "/" ++ r0.id
  match resp with
  | Except.error e => (r0, Except.error e, [⟨"GET", url⟩])
  | Except.ok d =>
    let r1 : Record :=
      { r0 with
        zone := d.zone
        fqdn := d.fqdn
        name := trimSuffixStr d.fqdn ("." ++ d.zone)
        type := d.recordType
        ttl := intToDec d.ttl }
    match getRecordValue d.recordType d.rdata with
    | some v => ({ r1 with value := v }, Except.ok (), [⟨"GET", url⟩])
    | none =>
      (r1, Except.error ("Invalid Dyn record type: " ++ d.recordType), [⟨"GET", url⟩])


theorem mk_data_eta (s : String) : String.mk s.data = s := rfl

theorem data_mk (l : List Char) : (String.mk l).data = l := rfl

theorem takeWhile_all {α : Type} (p : α → Bool) (l : List α)
    (h : ∀ x ∈ l, p x = true) : l.takeWhile p = l := by
  induction l with
  | nil => rfl
  | cons a t ih =>
    rw [List.takeWhile_cons, if_pos (h a (List.mem_cons_self a t))]
    rw [ih (fun x hx => h x (List.mem_cons_of_mem a hx))]

theorem dropWhile_all_neg {α : Type} (p : α → Bool) (l : List α)
    (h : ∀ x ∈ l, p x = false) : l.dropWhile p = l := by
  cases l with
  | nil => rfl
  | cons a t =>
    rw [List.dropWhile_cons]
    simp [h a (List.mem_cons_self a t)]

theorem takeWhile_all_append {α : Type} (p : α → Bool) (l1 : List α) (c : α)
    (l2 : List α) (h1 : ∀ x ∈ l1, p x = true) (hc : p c = false) :
    (l1 ++ c :: l2).takeWhile p = l1 := by
  induction l1 with
  | nil => simp [List.takeWhile_cons, hc]
  | cons a t ih =>
    rw [List.cons_append, List.takeWhile_cons, if_pos (h1 a (List.mem_cons_self a t))]
    rw [ih (fun x hx => h1 x (List.mem_cons_of_mem a hx))]

theorem dropWhile_all_append {α : Type} (p : α → Bool) (l1 : List α) (c : α)
    (l2 : List α) (h1 : ∀ x ∈ l1, p x = true) (hc : p c = false) :
    (l1 ++ c :: l2).dropWhile p = c :: l2 := by
  induction l1 with
  | nil => simp [List.dropWhile_cons, hc]
  | cons a t ih =>
    rw [List.cons_append, List.dropWhile_cons]
    simp only [h1 a (List.mem_cons_self a t), if_true]
    exact ih (fun x hx => h1 x (List.mem_cons_of_mem a hx))

theorem digitChar_spec : ∀ k, k < 10 →
    digitVal (digitChar k) = k ∧ goDigit (digitChar k) = true := by decide

theorem goDigit_not_space {c : Char} (h : goDigit c = true) : goSpace c = false := by
  simp only [goDigit, Bool.and_eq_true, decide_eq_true_eq] at h
  simp only [goSpace, Bool.or_eq_false_iff, decide_eq_false_iff_not]
  omega

theorem goDigit_ne_dash {c : Char} (h : goDigit c = true) : ¬ c = '-' := by
  intro he
  subst he
  simp [goDigit] at h

theorem goDigit_ne_plus {c : Char} (h : goDigit c = true) : ¬ c = '+' := by
  intro he
  subst he
  simp [goDigit] at h

theorem digitsToNat_append_digit (xs : List Char) (c : Char) :
    digitsToNat (xs ++ [c]) = digitsToNat xs * 10 + digitVal c := by
  simp [digitsToNat, List.foldl_append]

theorem natToDecAux_acc : ∀ (fuel n : Nat) (acc : List Char),
    natToDecAux fuel n acc = natToDecAux fuel n [] ++ acc := by
  intro fuel
  induction fuel with
  | zero => intro n acc; simp [natToDecAux]
  | succ f ih =>
    intro n acc
    by_cases h0 : n = 0
    · simp [natToDecAux, h0]
    · simp only [natToDecAux, h0, if_false]
      rw [ih (n / 10) (digitChar (n % 10) :: acc), ih (n / 10) [digitChar (n % 10)]]
      simp

theorem natToDecAux_spec : ∀ (fuel n : Nat), n ≤ fuel →
    (∀ c ∈ natToDecAux fuel n [], goDigit c = true) ∧
    digitsToNat (natToDecAux fuel n []) = n ∧
    (n ≠ 0 → natToDecAux fuel n [] ≠ []) := by
  intro fuel
  induction fuel with
  | zero =>
    intro n hn
    have h0 : n = 0 := by omega
    subst h0
    simp [natToDecAux, digitsToNat]
  | succ f ih =>
    intro n hn
    by_cases h0 : n = 0
    · subst h0; simp [natToDecAux, digitsToNat]
    · have hd : n / 10 ≤ f := by omega
      obtain ⟨ha, hb, _⟩ := ih (n / 10) hd
      have hrw : natToDecAux (f + 1) n [] = natToDecAux f (n / 10) [] ++ [digitChar (n % 10)] := by
        simp only [natToDecAux, h0, if_false]
        exact natToDecAux_acc f (n / 10) [digitChar (n % 10)]
      have hdig := digitChar_spec (n % 10) (by omega)
      refine ⟨?_, ?_, ?_⟩
      · intro c hcm
        rw [hrw] at hcm
        rcases List.mem_append.mp hcm with hca | hcb
        · exact ha c hca
        · rw [List.mem_singleton.mp hcb]; exact hdig.2
      · rw [hrw, digitsToNat_append_digit, hb, hdig.1]
        omega
      · intro _
        rw [hrw]
        simp

theorem natToDec_spec (n : Nat) :
    (∀ c ∈ (natToDec n).data, goDigit c = true) ∧
    digitsToNat (natToDec n).data = n ∧ (natToDec n).data ≠ [] := by
  by_cases h0 : n = 0
  · subst h0
    have hd : (natToDec 0).data = ['0'] := rfl
    refine ⟨?_, by decide, by decide⟩
    intro c hc
    rw [hd] at hc
    rw [List.mem_singleton.mp hc]
    decide
  · simp only [natToDec, h0, if_false, data_mk]
    obtain ⟨ha, hb, hc⟩ := natToDecAux_spec n n (Nat.le_refl n)
    exact ⟨ha, hb, hc h0⟩

theorem scanNat_print (n : Nat) (c : Char) (t : List Char) (hc : goDigit c = false) :
    scanNat ((natToDec n).data ++ c :: t) = some (n, c :: t) := by
  obtain ⟨ha, hb, hne⟩ := natToDec_spec n
  unfold scanNat
  rw [takeWhile_all_append _ _ _ _ ha hc, dropWhile_all_append _ _ _ _ ha hc]
  simp [hne, hb]

theorem scanInt_print (p : Int) (c : Char) (t : List Char) (hc : goDigit c = false) :
    scanInt ((intToDec p).data ++ c :: t) = some (p, c :: t) := by
  cases p with
  | ofNat n =>
    obtain ⟨ha, _, hne⟩ := natToDec_spec n
    obtain ⟨d, ds, hds⟩ := List.exists_cons_of_ne_nil hne
    have hdm : d ∈ (natToDec n).data := by rw [hds]; exact List.mem_cons_self d ds
    have hd : goDigit d = true := ha d hdm
    have hshape : (intToDec (Int.ofNat n)).data ++ c :: t = d :: (ds ++ c :: t) := by
      show (natToDec n).data ++ c :: t = d :: (ds ++ c :: t)
      rw [hds, List.cons_append]
    rw [hshape]
    show scanInt (d :: (ds ++ c :: t)) = some (Int.ofNat n, c :: t)
    simp only [scanInt]
    rw [if_neg (goDigit_ne_dash hd), if_neg (goDigit_ne_plus hd)]
    have hback : d :: (ds ++ c :: t) = (natToDec n).data ++ c :: t := hshape.symm
    rw [hback, scanNat_print n c t hc]
    rfl
  | negSucc m =>
    have hshape : (intToDec (Int.negSucc m)).data = '-' :: (natToDec (m + 1)).data := by
      show (("-" : String) ++ natToDec (m + 1)).data = '-' :: (natToDec (m + 1)).data
      rw [String.data_append]
      rfl
    rw [hshape, List.cons_append]
    show scanInt ('-' :: ((natToDec (m + 1)).data ++ c :: t)) = some (Int.negSucc m, c :: t)
    simp only [scanInt, if_true]
    rw [scanNat_print (m + 1) c t hc]
    show some (-((m + 1 : Nat) : Int), c :: t) = some (Int.negSucc m, c :: t)
    have : -((m + 1 : Nat) : Int) = Int.negSucc m := by
      rw [Int.negSucc_eq]
      push_cast
      ring
    rw [this]

theorem intToDec_head (p : Int) :
    ∃ d ds, (intToDec p).data = d :: ds ∧ goSpace d = false := by
  cases p with
  | ofNat n =>
    obtain ⟨ha, _, hne⟩ := natToDec_spec n
    obtain ⟨d, ds, hds⟩ := List.exists_cons_of_ne_nil hne
    refine ⟨d, ds, hds, ?_⟩
    have hdm : d ∈ (natToDec n).data := by rw [hds]; exact List.mem_cons_self d ds
    exact goDigit_not_space (ha d hdm)
  | negSucc m =>
    refine ⟨'-', (natToDec (m + 1)).data, ?_, by decide⟩
    show (("-" : String) ++ natToDec (m + 1)).data = '-' :: (natToDec (m + 1)).data
    rw [String.data_append]
    rfl

theorem sscanfDS_roundtrip (p : Int) (ex : String)
    (hsp : ∀ c ∈ ex.data, goSpace c = false) :
    sscanfDS (intToDec p ++ " " ++ ex) = (p, ex) := by
  have hdata : (intToDec p ++ " " ++ ex).data = (intToDec p).data ++ ' ' :: ex.data := by
    rw [String.data_append, String.data_append]
    simp
  unfold sscanfDS
  rw [hdata]
  obtain ⟨d, ds, hds, hdns⟩ := intToDec_head p
  have hdrop : ((intToDec p).data ++ ' ' :: ex.data).dropWhile goSpace
      = (intToDec p).data ++ ' ' :: ex.data := by
    rw [hds, List.cons_append, List.dropWhile_cons]
    simp [hdns]
  rw [hdrop, scanInt_print p ' ' ex.data (by decide)]
  have h1 : (' ' :: ex.data).dropWhile goSpace = ex.data.dropWhile goSpace := by
    rw [List.dropWhile_cons]
    simp [show goSpace ' ' = true by decide]
  have h2 : ex.data.dropWhile goSpace = ex.data := dropWhile_all_neg _ _ hsp
  have h3 : ex.data.takeWhile (fun c => !(goSpace c)) = ex.data := by
    refine takeWhile_all _ _ (fun c hcm => ?_)
    simp [hsp c hcm]
  simp only [h1, h2, h3, mk_data_eta]


theorem trimPrefixStr_append (pre x : String) : trimPrefixStr (pre ++ x) pre = x := by
  unfold trimPrefixStr
  rw [String.data_append]
  rw [if_pos (List.isPrefixOf_iff_prefix.mpr (List.prefix_append pre.data x.data))]
  rw [List.drop_left]

theorem selectIDStep_eq_getD (pat init url : String) :
    selectIDStep pat init url = (acceptedCandidate pat url).getD init := by
  unfold selectIDStep acceptedCandidate
  by_cases h : containsStr (trimPrefixStr url pat) '/' = false ∧ trimPrefixStr url pat ≠ ""
  · simp only [if_pos h, Option.getD_some]
  · simp only [if_neg h, Option.getD_none]

theorem getLastD_cons {α : Type} :
    ∀ (l : List α) (c i : α), ((c :: l).getLast?).getD i = (l.getLast?).getD c := by
  intro l
  induction l with
  | nil => intro c i; rfl
  | cons x xs ih =>
    intro c i
    rw [List.getLast?_cons_cons, ih x i, ih x c]

theorem selectID_eq_lastCandidate (pat : String) : ∀ (urls : List String) (init : String),
    selectID pat init urls = ((urls.filterMap (acceptedCandidate pat)).getLast?).getD init := by
  intro urls
  induction urls with
  | nil => intro init; rfl
  | cons u us ih =>
    intro init
    show selectID pat (selectIDStep pat init u) us = _
    rw [ih (selectIDStep pat init u), selectIDStep_eq_getD, List.filterMap_cons]
    cases hcand : acceptedCandidate pat u with
    | none => simp only [Option.getD_none]
    | some cnd => rw [Option.getD_some, getLastD_cons]

theorem sleepMillis_pos (lc : Nat) (h : 1 ≤ lc) : 1 ≤ sleepMillis lc := by
  simp only [sleepMillis, DO_RETRY_BACKOFF_FACTOR_MILLIS, DO_MAX_SLEEP_MILLIS]
  omega

theorem getRecordIDLoop_no_match : ∀ (k : Nat) (oracle : Nat → Except String (List String))
    (pat url : String),
    (∀ n, ∃ urls, oracle n = Except.ok urls ∧ selectID pat "" urls = "") →
    ∀ (lc cum : Nat) (h : 1 ≤ lc), DO_MAX_CUMULATIVE_WAIT_MILLIS - cum ≤ k →
    (getRecordIDLoop oracle pat url "" lc cum h).1
      = Except.error "Failed to find Dyn record id!" := by
  intro k
  induction k with
  | zero =>
    intro oracle pat url hn lc cum h hk
    obtain ⟨urls, hok, hsel⟩ := hn lc
    rw [getRecordIDLoop, hok]
    simp only [hsel]
    rw [dif_pos (Or.inr (show cum ≥ DO_MAX_CUMULATIVE_WAIT_MILLIS by omega))]
    simp
  | succ k ih =>
    intro oracle pat url hn lc cum h hk
    obtain ⟨urls, hok, hsel⟩ := hn lc
    rw [getRecordIDLoop, hok]
    simp only [hsel]
    by_cases hcum : cum ≥ DO_MAX_CUMULATIVE_WAIT_MILLIS
    · rw [dif_pos (Or.inr hcum)]
      simp
    · rw [dif_neg (by push_neg; exact ⟨rfl, by omega⟩)]
      simp only []
      have hs := sleepMillis_pos lc h
      exact ih oracle pat url hn (lc + 1) (cum + sleepMillis lc)
        (Nat.succ_le_succ (Nat.zero_le lc)) (by omega)

theorem getRecordIDLoop_head_call (oracle : Nat → Except String (List String))
    (pat url finalID : String) (lc cum : Nat) (h : 1 ≤ lc) :
    ∃ rest, (getRecordIDLoop oracle pat url finalID lc cum h).2 = ⟨"GET", url⟩ :: rest := by
  rw [getRecordIDLoop]
  cases hok : oracle lc with
  | error e => exact ⟨[], rfl⟩
  | ok urls =>
    by_cases hc : selectID pat finalID urls ≠ "" ∨ cum ≥ DO_MAX_CUMULATIVE_WAIT_MILLIS
    · refine ⟨[], ?_⟩
      simp only []
      rw [dif_pos hc]
    · refine ⟨(getRecordIDLoop oracle pat url (selectID pat finalID urls) (lc + 1)
        (cum + sleepMillis lc) (Nat.succ_le_succ (Nat.zero_le lc))).2, ?_⟩
      simp only []
      rw [dif_neg hc]

/-- C1 (counterexample): at the apex input (empty FQDN and empty name, zone
"example.com"), `UpdateRecord` and `DeleteRecord` derive the FQDN
".example.com", not the zone "example.com" that `CreateRecord`'s apex
special case produces, so the three derivations are not the same. -/
theorem c1_update_delete_apex_counterexample :
    (updateRecord (Except.ok ())
      { id := "1", zone := "example.com", name := "", value := "1.2.3.4", type := "A",
        fqdn := "", ttl := "60" }).1.fqdn = ".example.com"
    ∧ (deleteRecord (Except.ok ())
      { id := "1", zone := "example.com", name := "", value := "1.2.3.4", type := "A",
        fqdn := "", ttl := "60" }).1.fqdn = ".example.com"
    ∧ (createRecord (Except.ok ())
      { id := "1", zone := "example.com", name := "", value := "1.2.3.4", type := "A",
        fqdn := "", ttl := "60" }).1.fqdn = "example.com"
    ∧ (".example.com" : String) ≠ "example.com" :=
  ⟨rfl, rfl, rfl, by decide⟩

/-- C1 (amended): `UpdateRecord` and `DeleteRecord` derive the FQDN as
"{name}.{zone}" whenever it is empty, with no apex special case (an empty
name yields "." ++ zone), and leave a non-empty FQDN unchanged; only
`CreateRecord` maps the apex case (empty FQDN and empty name) to the zone. -/
theorem c1_fqdn_derivation_amended (doRes : Except String Unit) (r : Record) :
    (updateRecord doRes r).1.fqdn = (if r.fqdn = "" then r.name ++ "." ++ r.zone else r.fqdn)
    ∧ (deleteRecord doRes r).1.fqdn = (if r.fqdn = "" then r.name ++ "." ++ r.zone else r.fqdn)
    ∧ (createRecord doRes r).1.fqdn =
      (if r.fqdn = "" ∧ r.name = "" then r.zone
       else if r.fqdn = "" then r.name ++ "." ++ r.zone else r.fqdn) := by
  have hupd : (updateRecord doRes r).1
      = (if r.fqdn = "" then { r with fqdn := r.name ++ "." ++ r.zone } else r) := by
    unfold updateRecord
    split <;> (simp only []; split <;> rfl)
  have hdel : (deleteRecord doRes r).1
      = (if r.fqdn = "" then { r with fqdn := r.name ++ "." ++ r.zone } else r) := by
    unfold deleteRecord
    split <;> (simp only []; split <;> rfl)
  have hcre : (createRecord doRes r).1
      = (if r.fqdn = "" ∧ r.name = "" then { r with fqdn := r.zone }
         else if r.fqdn = "" then { r with fqdn := r.name ++ "." ++ r.zone } else r) := by
    unfold createRecord
    split
    · simp only []
      split <;> rfl
    · split <;> (simp only []; split <;> rfl)
  refine ⟨?_, ?_, ?_⟩
  · rw [hupd]
    by_cases hf : r.fqdn = ""
    · rw [if_pos hf, if_pos hf]
    · rw [if_neg hf, if_neg hf]
  · rw [hdel]
    by_cases hf : r.fqdn = ""
    · rw [if_pos hf, if_pos hf]
    · rw [if_neg hf, if_neg hf]
  · rw [hcre]
    by_cases ha : r.fqdn = "" ∧ r.name = ""
    · rw [if_pos ha, if_pos ha]
    · rw [if_neg ha, if_neg ha]
      by_cases hf : r.fqdn = ""
      · rw [if_pos hf, if_pos hf]
      · rw [if_neg hf, if_neg hf]

/-- C2: for every record whose ID is the empty string, `DeleteRecord`
returns the guard error and issues no HTTP call at all (empty call trace). -/
theorem c2_delete_empty_id (doRes : Except String Unit) (r : Record) (hid : r.id = "") :
    (deleteRecord doRes r).2.1 = Except.error "No ID found! We can't continue!"
    ∧ (deleteRecord doRes r).2.2 = [] := by
  have hid2 : (if r.fqdn = "" then { r with fqdn := r.name ++ "." ++ r.zone } else r).id = "" := by
    by_cases hf : r.fqdn = "" <;> simp [hf, hid]
  constructor
  · unfold deleteRecord
    simp only []
    rw [if_pos hid2]
  · unfold deleteRecord
    simp only []
    rw [if_pos hid2]

theorem c2_delete_empty_id_witness :
    (deleteRecord (Except.ok ())
      { zone := "example.com", name := "www", value := "1.2.3.4", type := "A" }).2.1
      = Except.error "No ID found! We can't continue!"
    ∧ (deleteRecord (Except.ok ())
      { zone := "example.com", name := "www", value := "1.2.3.4", type := "A" }).2.2 = [] :=
  c2_delete_empty_id (Except.ok ())
    { zone := "example.com", name := "www", value := "1.2.3.4", type := "A" } rfl

/-- C3: a listing URL contributes a candidate ID exactly when the stripped
remainder is non-empty and "/"-free: the inner loop equals "last accepted
candidate, or the initial value when none"; and in a listing with one
correctly-prefixed non-nested URL and one correctly-prefixed nested URL
(in either order) only the non-nested URL's suffix is selected. -/
theorem c3_candidate_filter :
    (∀ (pat init : String) (urls : List String),
      selectID pat init urls = ((urls.filterMap (acceptedCandidate pat)).getLast?).getD init)
    ∧ (∀ (pat idp nest : String), containsStr idp '/' = false → idp ≠ "" →
        containsStr nest '/' = true →
        selectID pat "" [pat ++ idp, pat ++ nest] = idp
        ∧ selectID pat "" [pat ++ nest, pat ++ idp] = idp) := by
  constructor
  · intro pat init urls
    exact selectID_eq_lastCandidate pat urls init
  · intro pat idp nest h1 h2 h3
    have e1 : trimPrefixStr (pat ++ idp) pat = idp := trimPrefixStr_append pat idp
    have e2 : trimPrefixStr (pat ++ nest) pat = nest := trimPrefixStr_append pat nest
    constructor
    · simp [selectID, selectIDStep, e1, e2, h1, h2, h3]
    · simp [selectID, selectIDStep, e1, e2, h1, h2, h3]

theorem c3_candidate_filter_witness :
    selectID "/REST/ARecord/example.com/www.example.com/" ""
      ["/REST/ARecord/example.com/www.example.com/" ++ "123",
       "/REST/ARecord/example.com/www.example.com/" ++ "child/456"] = "123" :=
  (c3_candidate_filter.2 "/REST/ARecord/example.com/www.example.com/" "123" "child/456"
    (by decide) (by decide) (by decide)).1

/-- C4: `GetRecordID` always terminates (the embedded loop is total, by
well-founded recursion on the remaining wait budget), and whenever no
listing ever yields a matching ID, the loop stops once the cumulative
sleep reaches the 30000 ms budget and the function returns the
"Failed to find Dyn record id!" error instead of looping indefinitely. -/
theorem c4_getRecordID_timeout (oracle : Nat → Except String (List String)) (r : Record)
    (hn : ∀ n, ∃ urls, oracle n = Except.ok urls ∧ selectID (recordListPat r) "" urls = "") :
    (getRecordID oracle r).2.1 = Except.error "Failed to find Dyn record id!" := by
  unfold getRecordID
  simp only []
  have hl := getRecordIDLoop_no_match DO_MAX_CUMULATIVE_WAIT_MILLIS oracle (recordListPat r)
    ("AllRecord/" ++ r.zone ++ "/" ++ r.fqdn) hn 1 0 (Nat.le_refl 1) (by omega)
  rw [hl]

theorem c4_getRecordID_timeout_witness :
    (getRecordID (fun _ => Except.ok [])
      { zone := "example.com", fqdn := "www.example.com", type := "A" }).2.1
      = Except.error "Failed to find Dyn record id!" :=
  c4_getRecordID_timeout (fun _ => Except.ok [])
    { zone := "example.com", fqdn := "www.example.com", type := "A" }
    (fun _ => ⟨[], rfl, rfl⟩)

/-- C5: for every oracle and record, `GetRecordID` issues at least one
listing request, and the first HTTP call in its trace is the GET to
`AllRecord/{zone}/{fqdn}` (the exit condition is only evaluated after a
fetch, so the first request is never skipped). -/
theorem c5_first_request_always (oracle : Nat → Except String (List String)) (r : Record) :
    ∃ rest, (getRecordID oracle r).2.2
      = ⟨"GET", "AllRecord/" ++ r.zone ++ "/" ++ r.fqdn⟩ :: rest := by
  obtain ⟨rest, hr⟩ := getRecordIDLoop_head_call oracle (recordListPat r)
    ("AllRecord/" ++ r.zone ++ "/" ++ r.fqdn) "" 1 0 (Nat.le_refl 1)
  refine ⟨rest, ?_⟩
  unfold getRecordID
  simp only []
  cases hres : (getRecordIDLoop oracle (recordListPat r)
      ("AllRecord/" ++ r.zone ++ "/" ++ r.fqdn) "" 1 0 (Nat.le_refl 1)).1 with
  | error e => simpa using hr
  | ok id => simpa using hr

/-- C7: at attempt N (N ≥ 1) with budget remaining and no match in that
attempt's listing, the loop adds exactly `sleepMillis N = min (N*250) 2000`
milliseconds to the cumulative wait before recursing: N*250 below the
per-attempt cap (N ≤ 8) and the 2000 ms cap from N = 8 on. -/
theorem c7_backoff_delay (oracle : Nat → Except String (List String)) (pat url : String)
    (N cum : Nat) (h : 1 ≤ N) (urls : List String)
    (hok : oracle N = Except.ok urls) (hno : selectID pat "" urls = "")
    (hcum : cum < DO_MAX_CUMULATIVE_WAIT_MILLIS) :
    sleepMillis N = min (N * 250) 2000
    ∧ (N ≤ 8 → sleepMillis N = N * 250)
    ∧ (8 ≤ N → sleepMillis N = 2000)
    ∧ getRecordIDLoop oracle pat url "" N cum h
      = ((getRecordIDLoop oracle pat url "" (N + 1) (cum + sleepMillis N)
            (Nat.succ_le_succ (Nat.zero_le N))).1,
         ⟨"GET", url⟩ ::
          (getRecordIDLoop oracle pat url "" (N + 1) (cum + sleepMillis N)
            (Nat.succ_le_succ (Nat.zero_le N))).2) := by
  refine ⟨rfl, ?_, ?_, ?_⟩
  · intro hle
    simp only [sleepMillis, DO_RETRY_BACKOFF_FACTOR_MILLIS, DO_MAX_SLEEP_MILLIS]
    omega
  · intro hge
    simp only [sleepMillis, DO_RETRY_BACKOFF_FACTOR_MILLIS, DO_MAX_SLEEP_MILLIS]
    omega
  · rw [getRecordIDLoop, hok]
    simp only [hno]
    rw [dif_neg (by push_neg; exact ⟨rfl, by omega⟩)]

theorem c7_backoff_delay_witness :
    getRecordIDLoop (fun _ => Except.ok []) "p" "u" "" 1 0 (Nat.le_refl 1)
      = ((getRecordIDLoop (fun _ => Except.ok []) "p" "u" "" (1 + 1) (0 + sleepMillis 1)
            (Nat.succ_le_succ (Nat.zero_le 1))).1,
         ⟨"GET", "u"⟩ ::
          (getRecordIDLoop (fun _ => Except.ok []) "p" "u" "" (1 + 1) (0 + sleepMillis 1)
            (Nat.succ_le_succ (Nat.zero_le 1))).2) :=
  (c7_backoff_delay (fun _ => Except.ok []) "p" "u" 1 0 (Nat.le_refl 1) [] rfl rfl
    (by decide)).2.2.2

/-- C6: for every supported non-MX record type and every value string,
`buildRData` followed by `GetRecord`'s type-matched extraction returns the
original value; for MX, every value of the form "preference exchange"
(decimal preference, single space, whitespace-free exchange) round-trips
to itself. -/
theorem c6_rdata_roundtrip (r : Record) :
    ((r.type = "A" ∨ r.type = "AAAA" ∨ r.type = "ALIAS" ∨ r.type = "CNAME" ∨ r.type = "NS"
        ∨ r.type = "SOA" ∨ r.type = "TXT" ∨ r.type = "SPF") →
      ∃ d, buildRData r = Except.ok d ∧ getRecordValue r.type d = some r.value)
    ∧ (r.type = "MX" → ∀ (p : Int) (ex : String), ex ≠ "" →
        (∀ c ∈ ex.data, goSpace c = false) →
        r.value = intToDec p ++ " " ++ ex →
        ∃ d, buildRData r = Except.ok d ∧ getRecordValue r.type d = some r.value) := by
  constructor
  · intro ht
    rcases ht with h | h | h | h | h | h | h | h
    · exact ⟨{ address := r.value }, by simp [buildRData, h], by simp [getRecordValue, h]⟩
    · exact ⟨{ address := r.value }, by simp [buildRData, h], by simp [getRecordValue, h]⟩
    · exact ⟨{ aliasName := r.value }, by simp [buildRData, h], by simp [getRecordValue, h]⟩
    · exact ⟨{ cname := r.value }, by simp [buildRData, h], by simp [getRecordValue, h]⟩
    · exact ⟨{ nsdname := r.value }, by simp [buildRData, h], by simp [getRecordValue, h]⟩
    · exact ⟨{ rname := r.value }, by simp [buildRData, h], by simp [getRecordValue, h]⟩
    · exact ⟨{ txtData := r.value }, by simp [buildRData, h], by simp [getRecordValue, h]⟩
    · exact ⟨{ txtData := r.value }, by simp [buildRData, h], by simp [getRecordValue, h]⟩
  · intro ht p ex hne hsp hval
    have hscan : sscanfDS r.value = (p, ex) := by
      rw [hval]
      exact sscanfDS_roundtrip p ex hsp
    refine ⟨{ preference := (sscanfDS r.value).1, exchange := (sscanfDS r.value).2 },
      by simp [buildRData, ht], ?_⟩
    rw [hscan]
    simp [getRecordValue, ht, hval]

theorem c6_rdata_roundtrip_witness :
    ∃ d, buildRData { type := "MX", value := "10 mail.example.com" } = Except.ok d
      ∧ getRecordValue "MX" d = some "10 mail.example.com" :=
  (c6_rdata_roundtrip { type := "MX", value := "10 mail.example.com" }).2 rfl 10
    "mail.example.com" (by decide) (by decide) (by decide)

/-- C8: `buildRData` returns the "Invalid Dyn record type" error for every
record type outside the supported set, and `GetRecord` returns the same
error whenever the (transport-successful) response's record type is
outside that set. -/
theorem c8_invalid_type_errors (t : String) (ht : t ∉ supportedTypes) :
    (∀ r : Record, r.type = t →
      buildRData r = Except.error ("Invalid Dyn record type: " ++ t))
    ∧ (∀ (d : RecordResponseData) (r0 : Record), d.recordType = t →
      (getRecord (Except.ok d) r0).2.1 = Except.error ("Invalid Dyn record type: " ++ t)) := by
  simp only [supportedTypes, List.mem_cons, List.mem_singleton, not_or] at ht
  obtain ⟨h1, h2, h3, h4, h5, h6, h7, h8, h9⟩ := ht
  constructor
  · intro r hr
    simp [buildRData, hr, h1, h2, h3, h4, h5, h6, h7, h8, h9]
  · intro d r0 hd
    have hval : getRecordValue d.recordType d.rdata = none := by
      simp [getRecordValue, hd, h1, h2, h3, h4, h5, h6, h7, h8, h9]
    unfold getRecord
    simp only []
    rw [hval, hd]

theorem c8_invalid_type_errors_witness :
    buildRData { type := "PTR", value := "x" } = Except.error "Invalid Dyn record type: PTR"
    ∧ (getRecord (Except.ok { recordType := "PTR" }) ({} : Record)).2.1
      = Except.error "Invalid Dyn record type: PTR" := by
  have h := c8_invalid_type_errors "PTR" (by decide)
  exact ⟨h.1 { type := "PTR", value := "x" } rfl, h.2 { recordType := "PTR" } ({} : Record) rfl⟩

/-- C9: for an MX record `buildRData` never errors: it always returns the
block built from the discarded-result `Sscanf` model, and when the value
does not start with a (possibly signed) integer the scan fails silently
and the block is the all-zero `DataBlock` (preference 0, empty exchange). -/
theorem c9_mx_never_errors (r : Record) (ht : r.type = "MX") :
    buildRData r
      = Except.ok { preference := (sscanfDS r.value).1, exchange := (sscanfDS r.value).2 }
    ∧ (scanInt (r.value.data.dropWhile goSpace) = none →
        buildRData r = Except.ok ({} : DataBlock)) := by
  constructor
  · simp [buildRData, ht]
  · intro hfail
    have hz : sscanfDS r.value = (0, "") := by
      unfold sscanfDS
      rw [hfail]
    simp [buildRData, ht, hz]

theorem c9_mx_never_errors_witness :
    buildRData { type := "MX", value := "garbage" } = Except.ok ({} : DataBlock) :=
  (c9_mx_never_errors { type := "MX", value := "garbage" } rfl).2 (by decide)

/-- C10 (counterexample): the claim says only the Value field keeps its
prior content; but at this concrete input (unsupported response type
"PTR") the returned record also keeps the caller's prior ID "42" while
the error is returned, so Value is not the only surviving field. -/
theorem c10_id_keeps_prior_counterexample :
    (getRecord (Except.ok { zone := "z2", fqdn := "w.z2", recordType := "PTR", ttl := 300 })
      { id := "42", zone := "oldzone", name := "old", value := "1.2.3.4", type := "A",
        fqdn := "old.fqdn", ttl := "60" }).1.id = "42"
    ∧ (getRecord (Except.ok { zone := "z2", fqdn := "w.z2", recordType := "PTR", ttl := 300 })
      { id := "42", zone := "oldzone", name := "old", value := "1.2.3.4", type := "A",
        fqdn := "old.fqdn", ttl := "60" }).2.1 = Except.error "Invalid Dyn record type: PTR" :=
  ⟨rfl, rfl⟩

/-- C10 (amended): on an unsupported response record type, `GetRecord`
returns the invalid-type error only after having already overwritten the
record's Zone, FQDN, Name, Type and TTL fields from the response; the
Value and ID fields keep their prior content. -/
theorem c10_getRecord_frame_amended (d : RecordResponseData) (r0 : Record)
    (hd : d.recordType ∉ supportedTypes) :
    getRecord (Except.ok d) r0 =
      ({ id := r0.id, zone := d.zone, name := trimSuffixStr d.fqdn ("." ++ d.zone),
         value := r0.value, type := d.recordType, fqdn := d.fqdn, ttl := intToDec d.ttl },
       Except.error ("Invalid Dyn record type: " ++ d.recordType),
       [⟨"GET", r0.type ++ "Record/" ++ r0.zone ++ "/" ++ r0.fqdn ++ "/" ++ r0.id⟩]) := by
  simp only [supportedTypes, List.mem_cons, List.mem_singleton, not_or] at hd
  obtain ⟨h1, h2, h3, h4, h5, h6, h7, h8, h9⟩ := hd
  have hval : getRecordValue d.recordType d.rdata = none := by
    simp [getRecordValue, h1, h2, h3, h4, h5, h6, h7, h8, h9]
  unfold getRecord
  simp only []
  rw [hval]

theorem c10_getRecord_frame_witness :
    getRecord (Except.ok { zone := "z9", fqdn := "h.z9", recordType := "SRV", ttl := 600 })
      { id := "7", zone := "a", name := "b", value := "c", type := "A", fqdn := "d", ttl := "e" }
      = ({ id := "7", zone := "z9", name := trimSuffixStr "h.z9" ("." ++ "z9"),
           value := "c", type := "SRV", fqdn := "h.z9", ttl := intToDec 600 },
         Except.error ("Invalid Dyn record type: " ++ "SRV"),
         [⟨"GET", "A" ++ "Record/" ++ "a" ++ "/" ++ "d" ++ "/" ++ "7"⟩]) :=
  c10_getRecord_frame_amended { zone := "z9", fqdn := "h.z9", recordType := "SRV", ttl := 600 }
    { id := "7", zone := "a", name := "b", value := "c", type := "A", fqdn := "d", ttl := "e" }
    (by decide)
